import Mathlib

/-
Verification of the two-tier lexicographic hotel-booking optimizer
(`pyomo_lco_mini.py` and `static_lco_model.py`).

The Python sources build a Pyomo MILP: binary acceptance variables `a[b]`,
binary room-assignment variables `y[b, r, d]` over a sparse index set, and
per-day slack `w[d]`.  A two-tier driver solves for maximal revenue, injects
a revenue-floor constraint, swaps the objective to slack minimization and
solves again.  This file embeds the pure content of that code: the stay-day
derivation, the index-set construction, the constraint families (as
predicates on solutions), the revenue expression, the two-tier orchestration
(with the external solver abstracted as a function that either returns
variable values or fails), and the solution extraction.
-/

namespace LCO

/-- Python `range(a, b)` on naturals: the list `[a, a+1, ..., b-1]`, empty when `b ≤ a`. -/
def pyRange (a b : Nat) : List Nat := List.range' a (b - a)

/-- A booking record: the `(start_day, length_of_stay, price_per_night, show_prob)`
tuples of `pyomo_lco_mini.py` and the `BookingSpec` dataclass of
`static_lco_model.py`.  Prices and probabilities are modelled as exact rationals. -/
structure Booking where
  start_day : Nat
  length_of_stay : Nat
  price_per_night : ℚ
  show_prob : ℚ
deriving DecidableEq

/-- Dictionary lookup in a booking table (Python `bookings[b]`, as an option). -/
def lookupBk (bks : List (Nat × Booking)) (b : Nat) : Option Booking :=
  (bks.find? fun p => p.1 == b).map Prod.snd

/-- `m.price[b]` : price of booking `b` (0 if absent; the sources only read keys of the dict). -/
def priceOf (bks : List (Nat × Booking)) (b : Nat) : ℚ :=
  ((lookupBk bks b).map Booking.price_per_night).getD 0

/-- `m.len[b]` / `m.length[b]` : length of stay of booking `b`. -/
def lenOf (bks : List (Nat × Booking)) (b : Nat) : Nat :=
  ((lookupBk bks b).map Booking.length_of_stay).getD 0

/-- `m.start[b]` : start day of booking `b`. -/
def startOf (bks : List (Nat × Booking)) (b : Nat) : Nat :=
  ((lookupBk bks b).map Booking.start_day).getD 0

/-- The list of booking ids (`m.B`, Python `list(bookings.keys())`). -/
def mB (bks : List (Nat × Booking)) : List Nat := bks.map Prod.fst

/-! ### Globals of `pyomo_lco_mini.py` -/

/-- `DAYS = 5` in `pyomo_lco_mini.py`. -/
def DAYS : Nat := 5

/-- `ROOMS = 10` in `pyomo_lco_mini.py`. -/
def ROOMS : Nat := 10

/-- `days = list(range(1, DAYS + 1))`. -/
def days : List Nat := pyRange 1 (DAYS + 1)

/-- `rooms = list(range(1, ROOMS + 1))`. -/
def rooms : List Nat := pyRange 1 (ROOMS + 1)

/-- The hard-coded 12-booking table of `pyomo_lco_mini.py`
(also returned by `build_default_bookings` in `static_lco_model.py`). -/
def miniBookings : List (Nat × Booking) :=
  [ (1,  ⟨1, 2, 120, 92/100⟩)
  , (2,  ⟨1, 3, 110, 85/100⟩)
  , (3,  ⟨2, 2, 150, 90/100⟩)
  , (4,  ⟨2, 3, 130, 80/100⟩)
  , (5,  ⟨3, 2, 140, 88/100⟩)
  , (6,  ⟨3, 3, 100, 83/100⟩)
  , (7,  ⟨4, 2, 160, 87/100⟩)
  , (8,  ⟨4, 2, 115, 78/100⟩)
  , (9,  ⟨5, 1, 200, 95/100⟩)
  , (10, ⟨1, 1, 180, 90/100⟩)
  , (11, ⟨2, 1, 170, 82/100⟩)
  , (12, ⟨3, 1, 175, 89/100⟩) ]

/-- `build_default_bookings()` of `static_lco_model.py`: the same 12-booking literal table. -/
def build_default_bookings : List (Nat × Booking) := miniBookings

/-- Body of `stay_days` in `pyomo_lco_mini.py` after destructuring the record:
`list(range(s, min(s + L, DAYS + 1)))`. -/
def stay_days_core (s L : Nat) : List Nat := pyRange s (min (s + L) (DAYS + 1))

/-- `stay_days(bid)` of `pyomo_lco_mini.py` (the table is the module-level global
`bookings`; an id outside the table would raise `KeyError`, modelled as `[]`). -/
def stay_days (bks : List (Nat × Booking)) (b : Nat) : List Nat :=
  match lookupBk bks b with
  | some bk => stay_days_core bk.start_day bk.length_of_stay
  | none => []

/-! ### Pieces of `build_static_lco_model` (`static_lco_model.py`) -/

/-- `m.D = Set(initialize=list(range(1, days + 1)))`. -/
def mD (nDays : Nat) : List Nat := pyRange 1 (nDays + 1)

/-- `m.R = Set(initialize=list(range(1, rooms + 1)))`. -/
def mR (nRooms : Nat) : List Nat := pyRange 1 (nRooms + 1)

/-- `_stay_days(b)` of `build_static_lco_model` after reading `s`, `L`:
`[d for d in m.D if d >= s and d < s + L]`. -/
def _stay_days (nDays s L : Nat) : List Nat :=
  (mD nDays).filter fun d => decide (s ≤ d ∧ d < s + L)

/-- `_stay_days` applied to the record of booking `b` (empty for an absent id). -/
def stayOf (bks : List (Nat × Booking)) (nDays : Nat) (b : Nat) : List Nat :=
  match lookupBk bks b with
  | some bk => _stay_days nDays bk.start_day bk.length_of_stay
  | none => []

/-! ### The set comprehensions shared by the two builders -/

/-- `{(b, d) for b in B for d in D if d in stay(b)}`. -/
def instayList (B D : List Nat) (stay : Nat → List Nat) : List (Nat × Nat) :=
  B.flatMap fun b => (D.filter fun d => decide (d ∈ stay b)).map fun d => (b, d)

/-- `{(b, r, d) for (b, d) in instay for r in R}`. -/
def yidxList (instay : List (Nat × Nat)) (R : List Nat) : List (Nat × Nat × Nat) :=
  instay.flatMap fun p => R.map fun r => (p.1, r, p.2)

/-- `{(b, r, d) for b in B for r in R for d in D if p b d}`. -/
def contTriples (B R D : List Nat) (p : Nat → Nat → Bool) : List (Nat × Nat × Nat) :=
  B.flatMap fun b => R.flatMap fun r => (D.filter (p b)).map fun d => (b, r, d)

/-- The index rectangle `B × D` over which Pyomo instantiates a constraint rule. -/
def prodBD (B D : List Nat) : List (Nat × Nat) :=
  B.flatMap fun b => D.map fun d => (b, d)

/-- The pairs of `B × D` at which the rule returns a constraint instead of
`Constraint.Skip`: exactly those lying in `instay`. -/
def skipFilter (B D : List Nat) (instay : List (Nat × Nat)) : List (Nat × Nat) :=
  (prodBD B D).filter fun q => decide (q ∈ instay)

/-! ### Instantiations for `pyomo_lco_mini.py` (parameterized by the module-global table) -/

/-- `in_stay` of `build_model`. -/
def in_stayM (bks : List (Nat × Booking)) : List (Nat × Nat) :=
  instayList (mB bks) days (stay_days bks)

/-- `m.YIDX` of `build_model`. -/
def YIDXM (bks : List (Nat × Booking)) : List (Nat × Nat × Nat) :=
  yidxList (in_stayM bks) rooms

/-- `cont` / `m.ContPair` of `build_model`:
`d in stay_days(b) and (d + 1) in stay_days(b)`. -/
def ContPairM (bks : List (Nat × Booking)) : List (Nat × Nat × Nat) :=
  contTriples (mB bks) rooms days fun b d =>
    decide (d ∈ stay_days bks b) && decide (d + 1 ∈ stay_days bks b)

/-- Index pairs at which `assign_if_accepted` produces a constraint
(the rule is instantiated on `m.B × m.D` and skips pairs outside `m.InStay`). -/
def AssignIdxM (bks : List (Nat × Booking)) : List (Nat × Nat) :=
  skipFilter (mB bks) days (in_stayM bks)

/-! ### Instantiations for `build_static_lco_model` -/

/-- `instay` / `m.InStay` of `build_static_lco_model`. -/
def InStayS (bks : List (Nat × Booking)) (nDays : Nat) : List (Nat × Nat) :=
  instayList (mB bks) (mD nDays) (stayOf bks nDays)

/-- `yidx` / `m.YIDX` of `build_static_lco_model`. -/
def YIDXS (bks : List (Nat × Booking)) (nDays nRooms : Nat) : List (Nat × Nat × Nat) :=
  yidxList (InStayS bks nDays) (mR nRooms)

/-- `cont` / `m.ContPair` of `build_static_lco_model`:
`(b, d) in instay and (b, d + 1) in instay`. -/
def ContPairS (bks : List (Nat × Booking)) (nDays nRooms : Nat) : List (Nat × Nat × Nat) :=
  contTriples (mB bks) (mR nRooms) (mD nDays) fun b d =>
    decide ((b, d) ∈ InStayS bks nDays) && decide ((b, d + 1) ∈ InStayS bks nDays)

/-- Index pairs at which `assign_link` produces a constraint. -/
def AssignIdxS (bks : List (Nat × Booking)) (nDays : Nat) : List (Nat × Nat) :=
  skipFilter (mB bks) (mD nDays) (InStayS bks nDays)

/-! ### Solutions and the constraint families of the built model

A (candidate) solution assigns the binary variables `a[b]` and `y[b, r, d]`
boolean values and the continuous slack `w[d]` a rational value.  Each
constraint family of the Pyomo model becomes a predicate on solutions over the
model's index sets. -/

/-- Values for the decision variables `m.a`, `m.y`, `m.w`. -/
structure Sol where
  a : Nat → Bool
  y : Nat → Nat → Nat → Bool
  w : Nat → ℚ

/-- The `assign_if_accepted` / `assign_link` family:
`sum(m.y[b, r, d] for r in m.R) == m.a[b]` at every generated index pair. -/
abbrev assignLinkHolds (R : List Nat) (idx : List (Nat × Nat)) (σ : Sol) : Prop :=
  ∀ p ∈ idx, (R.map fun r => (σ.y p.1 r p.2).toNat).sum = (σ.a p.1).toNat

/-- The `continuity` family: `m.y[b, r, d] == m.y[b, r, d + 1]` on `m.ContPair`. -/
abbrev continuityHolds (idx : List (Nat × Nat × Nat)) (σ : Sol) : Prop :=
  ∀ t ∈ idx, σ.y t.1 t.2.1 t.2.2 = σ.y t.1 t.2.1 (t.2.2 + 1)

/-- The `room_excl` family: for every room and day, at most one staying booking. -/
abbrev roomExclHolds (B R D : List Nat) (instay : List (Nat × Nat)) (σ : Sol) : Prop :=
  ∀ r ∈ R, ∀ d ∈ D,
    ((B.filter fun b => decide ((b, d) ∈ instay)).map fun b => (σ.y b r d).toNat).sum ≤ 1

/-! ### The revenue objective expression -/

/-- `m.RevenueExpr` / `m.RevExpr`:
`sum(m.a[b] * m.price[b] * m.len[b] for b in m.B)`, evaluated at acceptance
values `av` (for a 0/1 solution, `av b` is 0 or 1). -/
def RevenueExpr (bks : List (Nat × Booking)) (av : Nat → ℚ) : ℚ :=
  ((mB bks).map fun b => av b * priceOf bks b * (lenOf bks b : ℚ)).sum

/-! ### The two-tier orchestration

The external MILP backend (HiGHS / CBC behind `solver.solve`) is abstracted as
a function from the current model state to either loaded variable values or a
failure; a Python-level failure of the solve call propagates as an exception,
which the drivers do not catch, so the orchestrators are written in the
`Except` style.  The model state visible to the orchestration consists of the
built core, the active objective, and the optional revenue-floor constraint;
each driver also returns, for analysis, the list of model states it passed to
the backend, in call order. -/

/-- The active objective of the model: Tier-1 `maximize RevenueExpr` or
Tier-2 `minimize sum(m.w[d] for d in m.D)`. -/
inductive Objective
  | revenueMax
  | slackMin
deriving DecidableEq

/-- A failure status reported by the external solve backend. -/
inductive SolveStatus
  | infeasible
  | unbounded
  | solverFailure
deriving DecidableEq

/-- A Pyomo model as seen by the drivers: the immutable built core plus the
two components they mutate (`m.obj` and the optional `m.RevenueFloor`). -/
structure TierModel (C : Type) where
  core : C
  obj : Objective
  revenueFloor : Option ℚ
deriving DecidableEq

/-- Variable values loaded into the model by a successful solve. -/
structure Vals where
  aV : Nat → ℚ
  yV : Nat → Nat → Nat → ℚ
  wV : Nat → ℚ

/-- The external solve backend. -/
def Backend (C : Type) : Type := TierModel C → Except SolveStatus Vals

/-- The rational `1/2`, written in normalized form so that comparisons against
it are kernel-computable; this is the exact value of the `0.5` rounding
threshold in the sources. -/
def half : ℚ := Rat.mk' 1 2 (by omega) (Nat.coprime_one_left 2)

/-! ### `pyomo_lco_mini.py`: `build_model` and `run_two_tier_demo` -/

/-- `build_model()`: the model with the Tier-1 objective active and no revenue
floor, as a function of the module-level booking table.  The index sets and
constraint families above are functions of the same table.  The fixed table
of the source covers every horizon day, so its `RoomExcl` construction never
sees a trivial Boolean (see `build_static_lco_model` for that failure path of
the shared `room_excl` rule); the statements below exercise `build_model`
only on tables that cover every day. -/
def build_model (bks : List (Nat × Booking)) : TierModel (List (Nat × Booking)) :=
  ⟨bks, Objective.revenueMax, none⟩

/-- Room extraction for one accepted booking (the inner loop of
`run_two_tier_demo`): the first room `r` with
`(b, r, d) in m.YIDX and value(m.y[b, r, d]) > 0.5` for every stay day `d`,
`none` when no room passes. -/
def extractRoomM (bks : List (Nat × Booking)) (v : Vals) (b : Nat) : Option Nat :=
  rooms.find? fun r =>
    (stay_days bks b).all fun d =>
      decide ((b, r, d) ∈ YIDXM bks) && decide (half < v.yV b r d)

/-- The bookings marked accepted by extraction: `value(m.a[b]) > 0.5`. -/
def acceptedM (bks : List (Nat × Booking)) (v : Vals) : List Nat :=
  (mB bks).filter fun b => decide (half < v.aV b)

/-- The `assignments` list built by `run_two_tier_demo`:
`(b, stay_days(b), assigned_room)` for each accepted booking. -/
def assignmentsM (bks : List (Nat × Booking)) (v : Vals) :
    List (Nat × List Nat × Option Nat) :=
  (acceptedM bks v).map fun b => (b, stay_days bks b, extractRoomM bks v b)

/-- The result dictionary of `run_two_tier_demo`. -/
structure MiniResult where
  Z2 : ℚ
  slack_sum : ℚ
  daily_slack : List (Nat × ℚ)
  accepted_bookings : List (Nat × List Nat × Option Nat)

/-- `run_two_tier_demo(eps)`: solve Tier-1, record `Z2 = value(m.RevenueExpr)`,
add `m.RevenueFloor : RevenueExpr >= Z2 - eps`, replace `m.obj` by slack
minimization, solve again, extract.  The second component records the model
states passed to the backend, in order. -/
def run_two_tier_demo (backend : Backend (List (Nat × Booking)))
    (bks : List (Nat × Booking)) (eps : ℚ) :
    Except SolveStatus MiniResult × List (TierModel (List (Nat × Booking))) :=
  let m0 := build_model bks
  match backend m0 with
  | Except.error e => (Except.error e, [m0])
  | Except.ok v1 =>
    let Z2 := RevenueExpr bks v1.aV
    let m1 : TierModel (List (Nat × Booking)) :=
      ⟨m0.core, Objective.slackMin, some (Z2 - eps)⟩
    match backend m1 with
    | Except.error e => (Except.error e, [m0, m1])
    | Except.ok v2 =>
      (Except.ok
        { Z2 := Z2
        , slack_sum := (days.map v2.wV).sum
        , daily_slack := days.map fun d => (d, v2.wV d)
        , accepted_bookings := assignmentsM bks v2 }, [m0, m1])

/-- The default tolerance `eps = 1e-6` of both drivers. -/
def default_eps : ℚ := 1 / 1000000

/-! ### `static_lco_model.py`: `build_static_lco_model` and `solve_two_tier_lco` -/

/-- The built static model core: the data from which every set, parameter and
constraint of the Pyomo model is derived. -/
structure StaticCore where
  bookings : List (Nat × Booking)
  nDays : Nat
  nRooms : Nat
  cap : List (Nat × ℤ)
deriving DecidableEq

/-- The default capacity dictionary `{d: rooms for d in range(1, days + 1)}`,
keyed exactly by `m.D`. -/
def capDefault (nDays nRooms : Nat) : List (Nat × ℤ) :=
  (mD nDays).map fun d => (d, (nRooms : ℤ))

/-- Day `d` has at least one staying booking, i.e. the generator of the
`room_excl` sum `sum(m.y[b, r, d] for b in m.B if (b, d) in m.InStay)` is
nonempty. -/
abbrev dayCovered (bks : List (Nat × Booking)) (nDays : Nat) (d : Nat) : Prop :=
  ∃ b ∈ mB bks, (b, d) ∈ InStayS bks nDays

/-- `build_static_lco_model(bookings, days, rooms, capacity_by_day)`.
Build-time failure paths of the source, in construction order:
`m.start` is declared `within=m.D`, so Pyomo raises at parameter construction
when any booking's start day is outside `m.D`; `m.cap = Param(m.D, ...)`
raises at construction when the capacity dict has a key outside `m.D`; the
`room_excl` rule returns the plain Python Boolean `0 <= 1` on any day no
booking stays (an empty generator sum), which Pyomo rejects as a
trivial-Boolean constraint as soon as some `(r, d)` instance is generated;
and the `overbooking` rule reads `m.cap[d]` for every day, raising when the
capacity dict is missing a horizon day.  No other validation exists: in
particular capacity VALUES (e.g. negative ones) are never checked.  On
success the returned model has the Tier-1 objective active and no floor. -/
def build_static_lco_model (bookings : Option (List (Nat × Booking)))
    (nDays nRooms : Nat) (capacity_by_day : Option (List (Nat × ℤ))) :
    Except String (TierModel StaticCore) :=
  let bks := bookings.getD build_default_bookings
  if ¬ (∀ p ∈ bks, p.2.start_day ∈ mD nDays) then
    Except.error "Param m.start: value not in domain m.D"
  else
    let cap := capacity_by_day.getD (capDefault nDays nRooms)
    if ¬ (∀ q ∈ cap, q.1 ∈ mD nDays) then
      Except.error "Param m.cap: index not valid for index set m.D"
    else if mR nRooms ≠ [] ∧ ∃ d ∈ mD nDays, ¬ dayCovered bks nDays d then
      Except.error "RoomExcl: invalid constraint expression (trivial Boolean)"
    else if ¬ (∀ d ∈ mD nDays, d ∈ cap.map Prod.fst) then
      Except.error "Param m.cap: value not initialized for some day"
    else
      Except.ok ⟨⟨bks, nDays, nRooms, cap⟩, Objective.revenueMax, none⟩

/-- Room extraction of `solve_two_tier_lco` for one accepted booking. -/
def extractRoomS (c : StaticCore) (v : Vals) (b : Nat) : Option Nat :=
  (mR c.nRooms).find? fun r =>
    (stayOf c.bookings c.nDays b).all fun d =>
      decide ((b, r, d) ∈ YIDXS c.bookings c.nDays c.nRooms) && decide (half < v.yV b r d)

/-- `accepted_bookings` of `solve_two_tier_lco`: `value(m.a[b]) > 0.5`. -/
def acceptedS (c : StaticCore) (v : Vals) : List Nat :=
  (mB c.bookings).filter fun b => decide (half < v.aV b)

/-- `room_assignments` of `solve_two_tier_lco`:
`b -> (chosen_room, stay_days)` for each accepted booking. -/
def room_assignmentsS (c : StaticCore) (v : Vals) :
    List (Nat × (Option Nat × List Nat)) :=
  (acceptedS c v).map fun b => (b, (extractRoomS c v b, stayOf c.bookings c.nDays b))

/-- The `LCOResult` dataclass. -/
structure LCOResult where
  revenue_L2 : ℚ
  slack_L3 : ℚ
  accepted_bookings : List Nat
  room_assignments : List (Nat × (Option Nat × List Nat))
  slack_by_day : List (Nat × ℚ)

/-- A failure surfaced by `solve_two_tier_lco`: either the build-time
exception or an exception propagated from a backend solve call. -/
inductive OrchFailure
  | build (msg : String)
  | solver (e : SolveStatus)
deriving DecidableEq

/-- `solve_two_tier_lco(...)`: build, solve Tier-1, record `Z2`, inject
`m.RevenueFloor : RevExpr >= Z2 - revenue_floor_tolerance`, replace the
objective by `minimize sum(m.w[d] for d in m.D)`, solve Tier-2, extract.
The second component records the model states passed to the backend. -/
def solve_two_tier_lco (backend : Backend StaticCore)
    (bookings : Option (List (Nat × Booking))) (nDays nRooms : Nat)
    (capacity_by_day : Option (List (Nat × ℤ))) (eps : ℚ) :
    Except OrchFailure LCOResult × List (TierModel StaticCore) :=
  match build_static_lco_model bookings nDays nRooms capacity_by_day with
  | Except.error s => (Except.error (OrchFailure.build s), [])
  | Except.ok m0 =>
    match backend m0 with
    | Except.error e => (Except.error (OrchFailure.solver e), [m0])
    | Except.ok v1 =>
      let Z2 := RevenueExpr m0.core.bookings v1.aV
      let m1 : TierModel StaticCore := ⟨m0.core, Objective.slackMin, some (Z2 - eps)⟩
      match backend m1 with
      | Except.error e => (Except.error (OrchFailure.solver e), [m0, m1])
      | Except.ok v2 =>
        let slack_by_day := (mD m0.core.nDays).map fun d => (d, v2.wV d)
        (Except.ok
          { revenue_L2 := Z2
          , slack_L3 := (slack_by_day.map Prod.snd).sum
          , accepted_bookings := acceptedS m0.core v2
          , room_assignments := room_assignmentsS m0.core v2
          , slack_by_day := slack_by_day }, [m0, m1])

/-! ### Definitions taken from the specification's wording (for refinement
comparisons against the code-derived definitions above) -/

/-- The spec's stay-day description (§4.1): the ordered days `d` with
`s ≤ d ≤ min(s + L - 1, horizon)` and `d` within `[1, horizon]`. -/
def staySpecList (horizon s L : Nat) : List Nat :=
  (pyRange 1 (horizon + 1)).filter fun d =>
    decide (s ≤ d ∧ d ≤ min (s + L - 1) horizon ∧ 1 ≤ d ∧ d ≤ horizon)

/-- The spec's Tier-1 objective read with the length CLIPPED to the horizon
(the behaviour the spec explicitly says the code does NOT have): each booking
contributes `price · |StayDays(b)|` instead of `price · length_of_stay`. -/
def clippedRevenue (bks : List (Nat × Booking)) (nDays : Nat) (av : Nat → ℚ) : ℚ :=
  ((mB bks).map fun b => av b * priceOf bks b * ((stayOf bks nDays b).length : ℚ)).sum

/-! ### Helper lemmas -/

lemma mem_pyRange {a b m : Nat} : m ∈ pyRange a b ↔ a ≤ m ∧ m < b := by
  simp only [pyRange, List.mem_range'_1]
  omega

lemma pyRange_pairwise_lt (a b : Nat) : (pyRange a b).Pairwise (· < ·) :=
  List.pairwise_lt_range' a (b - a)

lemma eq_of_pairwise_lt_of_mem_iff {l1 l2 : List Nat} (h1 : l1.Pairwise (· < ·))
    (h2 : l2.Pairwise (· < ·)) (h : ∀ x, x ∈ l1 ↔ x ∈ l2) : l1 = l2 := by
  have d1 : l1.Nodup := h1.imp Nat.ne_of_lt
  have d2 : l2.Nodup := h2.imp Nat.ne_of_lt
  exact List.eq_of_perm_of_sorted ((List.perm_ext_iff_of_nodup d1 d2).mpr h)
    (h1.imp Nat.le_of_lt) (h2.imp Nat.le_of_lt)

lemma mem_prodBD {B D : List Nat} {b d : Nat} :
    (b, d) ∈ prodBD B D ↔ b ∈ B ∧ d ∈ D := by
  simp only [prodBD, List.mem_flatMap, List.mem_map, Prod.mk.injEq]
  constructor
  · rintro ⟨x, hx, y, hy, rfl, rfl⟩; exact ⟨hx, hy⟩
  · rintro ⟨hb, hd⟩; exact ⟨b, hb, d, hd, rfl, rfl⟩

lemma mem_instayList {B D : List Nat} {stay : Nat → List Nat} {b d : Nat} :
    (b, d) ∈ instayList B D stay ↔ b ∈ B ∧ d ∈ D ∧ d ∈ stay b := by
  simp only [instayList, List.mem_flatMap, List.mem_map, List.mem_filter,
    decide_eq_true_eq, Prod.mk.injEq]
  constructor
  · rintro ⟨x, hx, y, ⟨hy1, hy2⟩, rfl, rfl⟩; exact ⟨hx, hy1, hy2⟩
  · rintro ⟨hb, hd1, hd2⟩; exact ⟨b, hb, d, ⟨hd1, hd2⟩, rfl, rfl⟩

lemma mem_yidxList {instay : List (Nat × Nat)} {R : List Nat} {b r d : Nat} :
    (b, r, d) ∈ yidxList instay R ↔ (b, d) ∈ instay ∧ r ∈ R := by
  simp only [yidxList, List.mem_flatMap, List.mem_map, Prod.mk.injEq]
  constructor
  · rintro ⟨p, hp, x, hx, rfl, rfl, rfl⟩
    exact ⟨hp, hx⟩
  · rintro ⟨hp, hr⟩; exact ⟨(b, d), hp, r, hr, rfl, rfl, rfl⟩

lemma mem_contTriples {B R D : List Nat} {p : Nat → Nat → Bool} {b r d : Nat} :
    (b, r, d) ∈ contTriples B R D p ↔ b ∈ B ∧ r ∈ R ∧ d ∈ D ∧ p b d = true := by
  simp only [contTriples, List.mem_flatMap, List.mem_map, List.mem_filter, Prod.mk.injEq]
  constructor
  · rintro ⟨x, hx, y, hy, z, ⟨hz1, hz2⟩, rfl, rfl, rfl⟩; exact ⟨hx, hy, hz1, hz2⟩
  · rintro ⟨hb, hr, hd, hp⟩; exact ⟨b, hb, r, hr, d, ⟨hd, hp⟩, rfl, rfl, rfl⟩

lemma mem_skipFilter {B D : List Nat} {instay : List (Nat × Nat)} {q : Nat × Nat} :
    q ∈ skipFilter B D instay ↔ q ∈ prodBD B D ∧ q ∈ instay := by
  simp [skipFilter, List.mem_filter]

lemma mem_stay_days_core {s L d : Nat} :
    d ∈ stay_days_core s L ↔ s ≤ d ∧ d < s + L ∧ d ≤ DAYS := by
  simp only [stay_days_core, mem_pyRange]
  omega

lemma mem_stay_days_static {H s L d : Nat} :
    d ∈ _stay_days H s L ↔ 1 ≤ d ∧ d ≤ H ∧ s ≤ d ∧ d < s + L := by
  simp only [_stay_days, mD, List.mem_filter, mem_pyRange, decide_eq_true_eq]
  omega

lemma mem_stayOf {bks : List (Nat × Booking)} {H b d : Nat} :
    d ∈ stayOf bks H b ↔ ∃ bk, lookupBk bks b = some bk ∧
      1 ≤ d ∧ d ≤ H ∧ bk.start_day ≤ d ∧ d < bk.start_day + bk.length_of_stay := by
  unfold stayOf
  cases h : lookupBk bks b <;> simp [h, mem_stay_days_static]

lemma mem_stay_days_mini {bks : List (Nat × Booking)} {b d : Nat} :
    d ∈ stay_days bks b ↔ ∃ bk, lookupBk bks b = some bk ∧
      bk.start_day ≤ d ∧ d < bk.start_day + bk.length_of_stay ∧ d ≤ DAYS := by
  unfold stay_days
  cases h : lookupBk bks b <;> simp [h, mem_stay_days_core]

lemma stayOf_subset_mD {bks : List (Nat × Booking)} {H b d : Nat}
    (h : d ∈ stayOf bks H b) : d ∈ mD H := by
  rw [mem_stayOf] at h
  obtain ⟨bk, _, h1, h2, _, _⟩ := h
  rw [mD, mem_pyRange]
  omega

lemma stay_days_le_DAYS {bks : List (Nat × Booking)} {b d : Nat}
    (h : d ∈ stay_days bks b) : d ≤ DAYS := by
  rw [mem_stay_days_mini] at h
  obtain ⟨bk, _, _, _, hle⟩ := h
  exact hle

lemma stayOf_interval {bks : List (Nat × Booking)} {H b x y j : Nat}
    (hx : x ∈ stayOf bks H b) (hy : y ∈ stayOf bks H b)
    (h1 : x ≤ j) (h2 : j ≤ y) : j ∈ stayOf bks H b := by
  rw [mem_stayOf] at hx hy ⊢
  obtain ⟨bk, hbk, hx2⟩ := hx
  obtain ⟨bk2, hbk2, hy2⟩ := hy
  rw [hbk] at hbk2
  obtain rfl : bk = bk2 := Option.some.inj hbk2
  exact ⟨bk, hbk, by omega⟩

lemma stay_days_interval {bks : List (Nat × Booking)} {b x y j : Nat}
    (hx : x ∈ stay_days bks b) (hy : y ∈ stay_days bks b)
    (h1 : x ≤ j) (h2 : j ≤ y) : j ∈ stay_days bks b := by
  rw [mem_stay_days_mini] at hx hy ⊢
  obtain ⟨bk, hbk, hx2⟩ := hx
  obtain ⟨bk2, hbk2, hy2⟩ := hy
  rw [hbk] at hbk2
  obtain rfl : bk = bk2 := Option.some.inj hbk2
  exact ⟨bk, hbk, by omega⟩

lemma sum_map_toNat (R : List Nat) (f : Nat → Bool) :
    (R.map fun r => (f r).toNat).sum = (R.filter f).length := by
  induction R with
  | nil => simp
  | cons r R ih => cases hf : f r <;> simp [List.filter_cons, hf, ih, Nat.add_comm]

lemma exactly_one_of_sum_toNat_eq_one {R : List Nat} {f : Nat → Bool}
    (h : (R.map fun r => (f r).toNat).sum = 1) :
    ∃ r ∈ R, f r = true ∧ ∀ r2 ∈ R, f r2 = true → r2 = r := by
  rw [sum_map_toNat] at h
  obtain ⟨a, ha⟩ := List.length_eq_one.mp h
  have hmem : a ∈ R.filter f := by rw [ha]; exact List.mem_singleton.mpr rfl
  refine ⟨a, (List.mem_filter.mp hmem).1, (List.mem_filter.mp hmem).2, ?_⟩
  intro r2 hr2 hf2
  have : r2 ∈ R.filter f := List.mem_filter.mpr ⟨hr2, hf2⟩
  rw [ha] at this
  exact List.mem_singleton.mp this

lemma all_false_of_sum_toNat_eq_zero {R : List Nat} {f : Nat → Bool}
    (h : (R.map fun r => (f r).toNat).sum = 0) : ∀ r ∈ R, f r = false := by
  rw [sum_map_toNat] at h
  intro r hr
  cases hf : f r with
  | false => rfl
  | true =>
    have : r ∈ R.filter f := List.mem_filter.mpr ⟨hr, hf⟩
    rw [List.length_eq_zero.mp h] at this
    simp at this

lemma assign_link_semantics {R : List Nat} {idx : List (Nat × Nat)} {σ : Sol}
    (h : assignLinkHolds R idx σ) {b d : Nat} (hbd : (b, d) ∈ idx) :
    (σ.a b = true → ∃ r ∈ R, σ.y b r d = true ∧ ∀ r2 ∈ R, σ.y b r2 d = true → r2 = r) ∧
    (σ.a b = false → ∀ r ∈ R, σ.y b r d = false) := by
  have hs := h (b, d) hbd
  constructor
  · intro ha
    rw [ha] at hs
    exact exactly_one_of_sum_toNat_eq_one (by simpa using hs)
  · intro ha
    rw [ha] at hs
    exact all_false_of_sum_toNat_eq_zero (by simpa using hs)

lemma eq_of_consec (f : Nat → Bool) (a : Nat) :
    ∀ k, (∀ j, a ≤ j → j < a + k → f j = f (j + 1)) → f a = f (a + k) := by
  intro k
  induction k with
  | zero => intro _; rfl
  | succ n ih =>
    intro h
    have h1 : f a = f (a + n) := ih fun j hj1 hj2 => h j hj1 (by omega)
    have h2 : f (a + n) = f (a + n + 1) := h (a + n) (by omega) (by omega)
    rw [h1, h2]
    rfl

lemma constant_on_interval (f : Nat → Bool) (stay : List Nat)
    (hconv : ∀ x ∈ stay, ∀ y ∈ stay, ∀ j, x ≤ j → j ≤ y → j ∈ stay)
    (hstep : ∀ j, j ∈ stay → (j + 1) ∈ stay → f j = f (j + 1)) :
    ∀ d ∈ stay, ∀ d2 ∈ stay, f d = f d2 := by
  have key : ∀ d ∈ stay, ∀ d2 ∈ stay, d ≤ d2 → f d = f d2 := by
    intro d hd d2 hd2 hle
    obtain ⟨k, rfl⟩ : ∃ k, d2 = d + k := ⟨d2 - d, by omega⟩
    apply eq_of_consec
    intro j hj1 hj2
    exact hstep j (hconv d hd (d + k) hd2 j hj1 (by omega))
      (hconv d hd (d + k) hd2 (j + 1) (by omega) (by omega))
  intro d hd d2 hd2
  rcases Nat.le_total d d2 with hle | hle
  · exact key d hd d2 hd2 hle
  · exact (key d2 hd2 d hd hle).symm

lemma lookupBk_mem {bks : List (Nat × Booking)} {b : Nat} {bk : Booking}
    (h : lookupBk bks b = some bk) : (b, bk) ∈ bks := by
  unfold lookupBk at h
  cases hf : bks.find? fun p => p.1 == b with
  | none => rw [hf] at h; simp at h
  | some p =>
    rw [hf] at h
    simp at h
    have hkey : p.1 = b := by simpa using List.find?_some hf
    have hmem := List.mem_of_find?_eq_some hf
    have : p = (b, bk) := by
      cases p
      simp_all
    rw [this] at hmem
    exact hmem

lemma mem_staySpecList {H s L d : Nat} :
    d ∈ staySpecList H s L ↔ s ≤ d ∧ d ≤ min (s + L - 1) H ∧ 1 ≤ d ∧ d ≤ H := by
  simp only [staySpecList, List.mem_filter, mem_pyRange, decide_eq_true_eq]
  omega

lemma staySpecList_pairwise_lt (H s L : Nat) : (staySpecList H s L).Pairwise (· < ·) :=
  (pyRange_pairwise_lt 1 (H + 1)).sublist (List.filter_sublist _)

lemma stay_days_mini_in_days {bks : List (Nat × Booking)}
    (hstart : ∀ p ∈ bks, 1 ≤ p.2.start_day) {b d : Nat}
    (h : d ∈ stay_days bks b) : d ∈ days := by
  rw [mem_stay_days_mini] at h
  obtain ⟨bk, hbk, h1, _, h3⟩ := h
  have h4 : 1 ≤ bk.start_day := hstart (b, bk) (lookupBk_mem hbk)
  simp only [days, mem_pyRange]
  omega

/-! ### Concrete fixtures used in witnesses and counterexamples -/

/-- A single booking that extends two days past the 5-day horizon
(start day 4, length 4: nights 4, 5, 6, 7). -/
def extTable : List (Nat × Booking) := [(13, ⟨4, 4, 100, 1/2⟩)]

/-- Acceptance values that accept every booking. -/
def one_av : Nat → ℚ := fun _ => 1

/-- A one-booking table for a tiny 2-day, 1-room instance. -/
def tbl1 : List (Nat × Booking) := [(1, ⟨1, 2, 120, 9/10⟩)]

/-- The all-ones solution: everything accepted, every assignment set. -/
def solAll : Sol := ⟨fun _ => true, fun _ _ _ => true, fun _ => 0⟩

/-- Loaded values in which every variable reads 1. -/
def valsOne : Vals := ⟨fun _ => 1, fun _ _ _ => 1, fun _ => 0⟩

/-! ### Claims -/

/-- C4: for a booking with start day `s` and length `L`, both stay-day
derivations (`stay_days` in the mini file, iterated on `s ≥ 1` as every
`BookingSpec` start day is, and `_stay_days` in the static builder, for any
`s`, `L`) return exactly the ordered list of days `d` with
`s ≤ d ≤ min(s + L - 1, horizon)` and `d ∈ [1, horizon]`, and the list is
empty when `s` exceeds the horizon. -/
theorem C4_stay_day_derivation :
    (∀ s L, 1 ≤ s → stay_days_core s L = staySpecList DAYS s L) ∧
    (∀ H s L, _stay_days H s L = staySpecList H s L) ∧
    (∀ s L, DAYS < s → stay_days_core s L = []) ∧
    (∀ H s L, H < s → _stay_days H s L = []) := by
  refine ⟨?_, ?_, ?_, ?_⟩
  · intro s L hs
    apply eq_of_pairwise_lt_of_mem_iff (pyRange_pairwise_lt _ _) (staySpecList_pairwise_lt _ _ _)
    intro x
    rw [mem_pyRange, mem_staySpecList]
    omega
  · intro H s L
    apply eq_of_pairwise_lt_of_mem_iff
      ((pyRange_pairwise_lt 1 (H + 1)).sublist (List.filter_sublist _))
      (staySpecList_pairwise_lt _ _ _)
    intro x
    rw [List.mem_filter, mem_pyRange, mem_staySpecList]
    simp only [decide_eq_true_eq]
    omega
  · intro s L hs
    rw [List.eq_nil_iff_forall_not_mem]
    intro x hx
    rw [mem_stay_days_core] at hx
    simp only [DAYS] at *
    omega
  · intro H s L hs
    rw [List.eq_nil_iff_forall_not_mem]
    intro x hx
    rw [mem_stay_days_static] at hx
    omega

/-- Witness for C4 at concrete inputs: a stay `s = 3, L = 4` truncated by the
horizon, and an out-of-horizon start `s = 7`. -/
theorem C4_witness :
    (1 ≤ 3 ∧ stay_days_core 3 4 = staySpecList DAYS 3 4) ∧
    (DAYS < 7 ∧ stay_days_core 7 2 = []) :=
  ⟨⟨by decide, C4_stay_day_derivation.1 3 4 (by decide)⟩,
   ⟨by decide, C4_stay_day_derivation.2.2.1 7 2 (by decide)⟩⟩

/-- C5: in either builder's model an assignment variable `y[b, r, d]` exists
iff `b` is a booking, `r` a room and `d` a derived stay day of `b`
(for the mini builder this is stated for tables whose start days are ≥ 1, as
all `BookingSpec` start days are); in particular no variable exists for any
day beyond the horizon. -/
theorem C5_sparse_assignment_variables :
    (∀ bks H Rn b r d, (b, r, d) ∈ YIDXS bks H Rn ↔
        b ∈ mB bks ∧ r ∈ mR Rn ∧ d ∈ stayOf bks H b) ∧
    (∀ bks H Rn b r d, H < d → (b, r, d) ∉ YIDXS bks H Rn) ∧
    (∀ bks, (∀ p ∈ bks, 1 ≤ p.2.start_day) →
      ∀ b r d, ((b, r, d) ∈ YIDXM bks ↔ b ∈ mB bks ∧ r ∈ rooms ∧ d ∈ stay_days bks b)) ∧
    (∀ bks b r d, DAYS < d → (b, r, d) ∉ YIDXM bks) := by
  refine ⟨?_, ?_, ?_, ?_⟩
  · intro bks H Rn b r d
    rw [YIDXS, mem_yidxList, InStayS, mem_instayList]
    constructor
    · rintro ⟨⟨hb, _, hs⟩, hr⟩; exact ⟨hb, hr, hs⟩
    · rintro ⟨hb, hr, hs⟩; exact ⟨⟨hb, stayOf_subset_mD hs, hs⟩, hr⟩
  · intro bks H Rn b r d hd hmem
    rw [YIDXS, mem_yidxList, InStayS, mem_instayList] at hmem
    have := stayOf_subset_mD hmem.1.2.2
    rw [mD, mem_pyRange] at this
    omega
  · intro bks hstart b r d
    rw [YIDXM, mem_yidxList, in_stayM, mem_instayList]
    constructor
    · rintro ⟨⟨hb, _, hs⟩, hr⟩; exact ⟨hb, hr, hs⟩
    · rintro ⟨hb, hr, hs⟩; exact ⟨⟨hb, stay_days_mini_in_days hstart hs, hs⟩, hr⟩
  · intro bks b r d hd hmem
    rw [YIDXM, mem_yidxList, in_stayM, mem_instayList] at hmem
    have := hmem.1.2.1
    simp only [days, DAYS, mem_pyRange] at *
    omega

/-- Witness for C5: the extended-stay booking 13 (start 4, length 4) has a
variable for room 2 on in-horizon day 5 and none on out-of-horizon day 6. -/
theorem C5_witness :
    ((13, 2, 5) ∈ YIDXM extTable ↔
      13 ∈ mB extTable ∧ 2 ∈ rooms ∧ 5 ∈ stay_days extTable 13) ∧
    (DAYS < 6 ∧ (13, 2, 6) ∉ YIDXM extTable) :=
  ⟨C5_sparse_assignment_variables.2.2.1 extTable (by decide) 13 2 5,
   ⟨by decide, C5_sparse_assignment_variables.2.2.2 extTable 13 2 6 (by decide)⟩⟩

/-- C2: the Tier-1 objective of both builders is
`sum(a[b] * price[b] * length_of_stay[b])` with the length taken verbatim
from the booking record; for the booking of `extTable` (4 nights starting
day 4 on a 5-day horizon) the objective credits all 4 nights (revenue 400)
although only 2 stay days are inside the horizon (a clipped objective would
give 200). -/
theorem C2_revenue_uses_verbatim_length :
    (∀ bks av, RevenueExpr bks av =
      ((mB bks).map fun b => av b * priceOf bks b * (lenOf bks b : ℚ)).sum) ∧
    lenOf extTable 13 = 4 ∧
    RevenueExpr extTable one_av = 400 ∧
    (stayOf extTable 5 13).length = 2 ∧
    clippedRevenue extTable 5 one_av = 200 := by
  refine ⟨fun bks av => rfl, by decide, ?_, by decide, ?_⟩
  · have h : lookupBk extTable 13 = some ⟨4, 4, 100, 1/2⟩ := rfl
    have hmB : mB extTable = [13] := rfl
    simp only [RevenueExpr, hmB, priceOf, lenOf, h, one_av, Option.map_some,
      Option.getD_some, List.map_cons, List.map_nil, List.sum_cons, List.sum_nil]
    norm_num
  · have h : lookupBk extTable 13 = some ⟨4, 4, 100, 1/2⟩ := rfl
    have h2 : (stayOf extTable 5 13).length = 2 := by decide
    have hmB : mB extTable = [13] := rfl
    simp only [clippedRevenue, hmB, priceOf, h, h2, one_av, Option.map_some,
      Option.getD_some, List.map_cons, List.map_nil, List.sum_cons, List.sum_nil]
    norm_num

lemma constancyS {bks : List (Nat × Booking)} {H Rn : Nat} {σ : Sol}
    (hc : continuityHolds (ContPairS bks H Rn) σ) {b r : Nat}
    (hb : b ∈ mB bks) (hr : r ∈ mR Rn) :
    ∀ d ∈ stayOf bks H b, ∀ d2 ∈ stayOf bks H b, σ.y b r d = σ.y b r d2 := by
  apply constant_on_interval (σ.y b r) _
    (fun x hx y hy j h1 h2 => stayOf_interval hx hy h1 h2)
  intro j hj hj1
  have hmem : (b, r, j) ∈ ContPairS bks H Rn := by
    rw [ContPairS, mem_contTriples]
    refine ⟨hb, hr, stayOf_subset_mD hj, ?_⟩
    rw [Bool.and_eq_true]
    constructor
    · exact decide_eq_true (by
        rw [InStayS, mem_instayList]; exact ⟨hb, stayOf_subset_mD hj, hj⟩)
    · exact decide_eq_true (by
        rw [InStayS, mem_instayList]; exact ⟨hb, stayOf_subset_mD hj1, hj1⟩)
  exact hc (b, r, j) hmem

lemma constancyM {bks : List (Nat × Booking)} {σ : Sol}
    (hstart : ∀ p ∈ bks, 1 ≤ p.2.start_day)
    (hc : continuityHolds (ContPairM bks) σ) {b r : Nat}
    (hb : b ∈ mB bks) (hr : r ∈ rooms) :
    ∀ d ∈ stay_days bks b, ∀ d2 ∈ stay_days bks b, σ.y b r d = σ.y b r d2 := by
  apply constant_on_interval (σ.y b r) _
    (fun x hx y hy j h1 h2 => stay_days_interval hx hy h1 h2)
  intro j hj hj1
  have hmem : (b, r, j) ∈ ContPairM bks := by
    rw [ContPairM, mem_contTriples]
    refine ⟨hb, hr, stay_days_mini_in_days hstart hj, ?_⟩
    rw [Bool.and_eq_true]
    exact ⟨decide_eq_true hj, decide_eq_true hj1⟩
  exact hc (b, r, j) hmem

/-- C6: in both builders the linkage constraint
`sum(y[b, r, d] for r in R) == a[b]` is generated exactly at the pairs
`(b, d)` with `d` a stay day of booking `b` (the rule returns
`Constraint.Skip` elsewhere, so no constraint object exists at other pairs);
semantically, wherever the family holds, an accepted booking occupies exactly
one room on each stay day and a rejected one occupies none. -/
theorem C6_acceptance_assignment_link :
    (∀ bks H b d, (b, d) ∈ AssignIdxS bks H ↔ b ∈ mB bks ∧ d ∈ stayOf bks H b) ∧
    (∀ bks, (∀ p ∈ bks, 1 ≤ p.2.start_day) →
      ∀ b d, ((b, d) ∈ AssignIdxM bks ↔ b ∈ mB bks ∧ d ∈ stay_days bks b)) ∧
    (∀ bks H Rn σ, assignLinkHolds (mR Rn) (AssignIdxS bks H) σ →
      ∀ b ∈ mB bks, ∀ d ∈ stayOf bks H b,
        (σ.a b = true → ∃ r ∈ mR Rn, σ.y b r d = true ∧
          ∀ r2 ∈ mR Rn, σ.y b r2 d = true → r2 = r) ∧
        (σ.a b = false → ∀ r ∈ mR Rn, σ.y b r d = false)) ∧
    (∀ bks σ, (∀ p ∈ bks, 1 ≤ p.2.start_day) →
      assignLinkHolds rooms (AssignIdxM bks) σ →
      ∀ b ∈ mB bks, ∀ d ∈ stay_days bks b,
        (σ.a b = true → ∃ r ∈ rooms, σ.y b r d = true ∧
          ∀ r2 ∈ rooms, σ.y b r2 d = true → r2 = r) ∧
        (σ.a b = false → ∀ r ∈ rooms, σ.y b r d = false)) := by
  refine ⟨?_, ?_, ?_, ?_⟩
  · intro bks H b d
    rw [AssignIdxS, mem_skipFilter, mem_prodBD, InStayS, mem_instayList]
    constructor
    · rintro ⟨⟨hb, _⟩, _, _, hs⟩; exact ⟨hb, hs⟩
    · rintro ⟨hb, hs⟩
      exact ⟨⟨hb, stayOf_subset_mD hs⟩, hb, stayOf_subset_mD hs, hs⟩
  · intro bks hstart b d
    rw [AssignIdxM, mem_skipFilter, mem_prodBD, in_stayM, mem_instayList]
    constructor
    · rintro ⟨⟨hb, _⟩, _, _, hs⟩; exact ⟨hb, hs⟩
    · rintro ⟨hb, hs⟩
      exact ⟨⟨hb, stay_days_mini_in_days hstart hs⟩,
        hb, stay_days_mini_in_days hstart hs, hs⟩
  · intro bks H Rn σ h b hb d hd
    have hbd : (b, d) ∈ AssignIdxS bks H := by
      rw [AssignIdxS, mem_skipFilter, mem_prodBD, InStayS, mem_instayList]
      exact ⟨⟨hb, stayOf_subset_mD hd⟩, hb, stayOf_subset_mD hd, hd⟩
    exact assign_link_semantics h hbd
  · intro bks σ hstart h b hb d hd
    have hbd : (b, d) ∈ AssignIdxM bks := by
      rw [AssignIdxM, mem_skipFilter, mem_prodBD, in_stayM, mem_instayList]
      exact ⟨⟨hb, stay_days_mini_in_days hstart hd⟩,
        hb, stay_days_mini_in_days hstart hd, hd⟩
    exact assign_link_semantics h hbd

/-- Witness for C6: the tiny 2-day, 1-room instance with the all-ones
solution satisfies the linkage family and booking 1 occupies exactly one
room on its stay day 1. -/
theorem C6_witness :
    assignLinkHolds (mR 1) (AssignIdxS tbl1 2) solAll ∧
    ((solAll.a 1 = true → ∃ r ∈ mR 1, solAll.y 1 r 1 = true ∧
        ∀ r2 ∈ mR 1, solAll.y 1 r2 1 = true → r2 = r) ∧
     (solAll.a 1 = false → ∀ r ∈ mR 1, solAll.y 1 r 1 = false)) :=
  ⟨by decide,
   C6_acceptance_assignment_link.2.2.1 tbl1 2 1 solAll (by decide) 1 (by decide) 1 (by decide)⟩

/-- C7: in both builders the continuity constraint
`y[b, r, d] == y[b, r, d + 1]` is generated exactly at the triples whose
`d` and `d + 1` are both stay days of `b`; consequently, in any solution
satisfying the family, `y[b, r, ·]` is constant across the (contiguous) stay
days, and with the linkage family an accepted booking occupies one single
room on all of its stay days. -/
theorem C7_room_continuity :
    (∀ bks H Rn b r d, (b, r, d) ∈ ContPairS bks H Rn ↔
      b ∈ mB bks ∧ r ∈ mR Rn ∧ d ∈ stayOf bks H b ∧ (d + 1) ∈ stayOf bks H b) ∧
    (∀ bks, (∀ p ∈ bks, 1 ≤ p.2.start_day) → ∀ b r d,
      ((b, r, d) ∈ ContPairM bks ↔
        b ∈ mB bks ∧ r ∈ rooms ∧ d ∈ stay_days bks b ∧ (d + 1) ∈ stay_days bks b)) ∧
    (∀ bks H Rn σ, continuityHolds (ContPairS bks H Rn) σ →
      ∀ b ∈ mB bks, ∀ r ∈ mR Rn, ∀ d ∈ stayOf bks H b, ∀ d2 ∈ stayOf bks H b,
        σ.y b r d = σ.y b r d2) ∧
    (∀ bks σ, (∀ p ∈ bks, 1 ≤ p.2.start_day) → continuityHolds (ContPairM bks) σ →
      ∀ b ∈ mB bks, ∀ r ∈ rooms, ∀ d ∈ stay_days bks b, ∀ d2 ∈ stay_days bks b,
        σ.y b r d = σ.y b r d2) ∧
    (∀ bks H Rn σ, continuityHolds (ContPairS bks H Rn) σ →
      assignLinkHolds (mR Rn) (AssignIdxS bks H) σ →
      ∀ b ∈ mB bks, σ.a b = true → ∀ d0 ∈ stayOf bks H b,
        ∃ r ∈ mR Rn, (∀ d ∈ stayOf bks H b, σ.y b r d = true) ∧
          ∀ r2 ∈ mR Rn, σ.y b r2 d0 = true → r2 = r) := by
  refine ⟨?_, ?_, ?_, ?_, ?_⟩
  · intro bks H Rn b r d
    rw [ContPairS, mem_contTriples, Bool.and_eq_true, decide_eq_true_eq, decide_eq_true_eq,
      InStayS, mem_instayList, mem_instayList]
    constructor
    · rintro ⟨hb, hr, _, ⟨_, _, h1⟩, _, _, h2⟩; exact ⟨hb, hr, h1, h2⟩
    · rintro ⟨hb, hr, h1, h2⟩
      exact ⟨hb, hr, stayOf_subset_mD h1, ⟨hb, stayOf_subset_mD h1, h1⟩,
        hb, stayOf_subset_mD h2, h2⟩
  · intro bks hstart b r d
    rw [ContPairM, mem_contTriples, Bool.and_eq_true, decide_eq_true_eq, decide_eq_true_eq]
    constructor
    · rintro ⟨hb, hr, _, h1, h2⟩; exact ⟨hb, hr, h1, h2⟩
    · rintro ⟨hb, hr, h1, h2⟩
      exact ⟨hb, hr, stay_days_mini_in_days hstart h1, h1, h2⟩
  · intro bks H Rn σ hc b hb r hr
    exact constancyS hc hb hr
  · intro bks σ hstart hc b hb r hr
    exact constancyM hstart hc hb hr
  · intro bks H Rn σ hc hal b hb ha d0 hd0
    have hbd : (b, d0) ∈ AssignIdxS bks H := by
      rw [AssignIdxS, mem_skipFilter, mem_prodBD, InStayS, mem_instayList]
      exact ⟨⟨hb, stayOf_subset_mD hd0⟩, hb, stayOf_subset_mD hd0, hd0⟩
    obtain ⟨r, hr, hyr, huniq⟩ := (assign_link_semantics hal hbd).1 ha
    refine ⟨r, hr, ?_, huniq⟩
    intro d hd
    rw [constancyS hc hb hr d hd d0 hd0]
    exact hyr

/-- Witness for C7: on the tiny instance with the all-ones solution, booking
1 is accepted and gets the single room 1 on both of its stay days. -/
theorem C7_witness :
    continuityHolds (ContPairS tbl1 2 1) solAll ∧
    assignLinkHolds (mR 1) (AssignIdxS tbl1 2) solAll ∧
    (∃ r ∈ mR 1, (∀ d ∈ stayOf tbl1 2 1, solAll.y 1 r d = true) ∧
      ∀ r2 ∈ mR 1, solAll.y 1 r2 1 = true → r2 = r) :=
  ⟨by decide, by decide,
   C7_room_continuity.2.2.2.2 tbl1 2 1 solAll (by decide) (by decide) 1 (by decide) rfl
     1 (by decide)⟩

/-! ### Backends used as concrete fixtures -/

/-- A backend that always succeeds with all-ones values. -/
def okBackendM : Backend (List (Nat × Booking)) := fun _ => Except.ok valsOne

/-- A backend for the static driver that always succeeds with all-ones values. -/
def okBackendS : Backend StaticCore := fun _ => Except.ok valsOne

/-- A backend that fails (infeasible) on every solve, in particular on Tier-1. -/
def failT1 : Backend (List (Nat × Booking)) := fun _ => Except.error SolveStatus.infeasible

/-- A backend that succeeds on the Tier-1 model and reports infeasible on the
Tier-2 (slack-objective) model. -/
def failT2 : Backend (List (Nat × Booking)) := fun tm =>
  match tm.obj with
  | Objective.revenueMax => Except.ok valsOne
  | Objective.slackMin => Except.error SolveStatus.infeasible

lemma build_static_obj {bookings : Option (List (Nat × Booking))}
    {nDays nRooms : Nat} {cap : Option (List (Nat × ℤ))} {m0 : TierModel StaticCore}
    (hb : build_static_lco_model bookings nDays nRooms cap = Except.ok m0) :
    m0.obj = Objective.revenueMax ∧ m0.revenueFloor = none := by
  simp only [build_static_lco_model] at hb
  split at hb
  · cases hb
  · split at hb
    · cases hb
    · split at hb
      · cases hb
      · split at hb
        · cases hb
        · cases hb
          exact ⟨rfl, rfl⟩

/-- C1: in both drivers, whenever the Tier-1 solve succeeds, the second
backend invocation receives exactly the model extended with the revenue floor
`RevenueExpr ≥ Z1 - eps` (`Z1` the recorded Tier-1 objective value) and with
the objective replaced by slack minimization; a model with the slack
objective and no floor is never passed to the backend; the default tolerance
is the non-negative `1e-6`. -/
theorem C1_floor_injected_before_tier2 :
    (∀ backend bks eps v1, backend (build_model bks) = Except.ok v1 →
      (run_two_tier_demo backend bks eps).2 =
        [build_model bks,
         ⟨bks, Objective.slackMin, some (RevenueExpr bks v1.aV - eps)⟩]) ∧
    (∀ backend bks eps, ∀ tm ∈ (run_two_tier_demo backend bks eps).2,
      tm.obj = Objective.slackMin → tm.revenueFloor ≠ none) ∧
    (∀ backend bookings nDays nRooms cap eps m0 v1,
      build_static_lco_model bookings nDays nRooms cap = Except.ok m0 →
      backend m0 = Except.ok v1 →
      (solve_two_tier_lco backend bookings nDays nRooms cap eps).2 =
        [m0, ⟨m0.core, Objective.slackMin,
              some (RevenueExpr m0.core.bookings v1.aV - eps)⟩]) ∧
    (∀ backend bookings nDays nRooms cap eps,
      ∀ tm ∈ (solve_two_tier_lco backend bookings nDays nRooms cap eps).2,
      tm.obj = Objective.slackMin → tm.revenueFloor ≠ none) ∧
    default_eps = 1 / 1000000 ∧ 0 ≤ default_eps := by
  refine ⟨?_, ?_, ?_, ?_, rfl, by norm_num [default_eps]⟩
  · intro backend bks eps v1 h
    have h' : backend ⟨bks, Objective.revenueMax, none⟩ = Except.ok v1 := h
    rcases h2 : backend ⟨bks, Objective.slackMin, some (RevenueExpr bks v1.aV - eps)⟩
      with e | v2 <;>
      simp [run_two_tier_demo, build_model, h', h2]
  · intro backend bks eps tm htm hobj
    rcases h1 : backend ⟨bks, Objective.revenueMax, none⟩ with e | v1
    · simp only [run_two_tier_demo, build_model, h1, List.mem_singleton] at htm
      subst htm
      simp at hobj
    · rcases h2 : backend ⟨bks, Objective.slackMin, some (RevenueExpr bks v1.aV - eps)⟩
        with e2 | v2 <;>
      · simp only [run_two_tier_demo, build_model, h1, h2, List.mem_cons,
          List.mem_singleton, List.not_mem_nil, or_false] at htm
        rcases htm with rfl | rfl
        · simp at hobj
        · simp
  · intro backend bookings nDays nRooms cap eps m0 v1 hb h
    rcases h2 : backend ⟨m0.core, Objective.slackMin,
        some (RevenueExpr m0.core.bookings v1.aV - eps)⟩ with e | v2 <;>
      simp [solve_two_tier_lco, hb, h, h2]
  · intro backend bookings nDays nRooms cap eps tm htm hobj
    rcases hb : build_static_lco_model bookings nDays nRooms cap with s | m0
    · simp only [solve_two_tier_lco, hb, List.not_mem_nil] at htm
    · rcases h1 : backend m0 with e | v1
      · simp only [solve_two_tier_lco, hb, h1, List.mem_singleton] at htm
        subst htm
        rw [(build_static_obj hb).1] at hobj
        simp at hobj
      · rcases h2 : backend ⟨m0.core, Objective.slackMin,
            some (RevenueExpr m0.core.bookings v1.aV - eps)⟩ with e2 | v2 <;>
        · simp only [solve_two_tier_lco, hb, h1, h2, List.mem_cons,
            List.mem_singleton, List.not_mem_nil, or_false] at htm
          rcases htm with rfl | rfl
          · rw [(build_static_obj hb).1] at hobj
            simp at hobj
          · simp

/-- Witness for C1: the constant all-ones backend on the default tables. -/
theorem C1_witness :
    (run_two_tier_demo okBackendM miniBookings default_eps).2 =
      [build_model miniBookings,
       ⟨miniBookings, Objective.slackMin,
        some (RevenueExpr miniBookings valsOne.aV - default_eps)⟩] :=
  C1_floor_injected_before_tier2.1 okBackendM miniBookings default_eps valsOne rfl

/-- C3 (amended): if the backend fails on the Tier-1 solve, both drivers
propagate that failure verbatim to the caller and never inject the floor nor
invoke the Tier-2 solve; the propagated condition carries no indication of
which tier failed (see the counterexample for indistinguishability). -/
theorem C3_tier1_failure_aborts :
    (∀ backend bks eps e, backend (build_model bks) = Except.error e →
      run_two_tier_demo backend bks eps = (Except.error e, [build_model bks])) ∧
    (∀ backend bookings nDays nRooms cap eps m0 e,
      build_static_lco_model bookings nDays nRooms cap = Except.ok m0 →
      backend m0 = Except.error e →
      solve_two_tier_lco backend bookings nDays nRooms cap eps =
        (Except.error (OrchFailure.solver e), [m0])) := by
  constructor
  · intro backend bks eps e h
    simp [run_two_tier_demo, h]
  · intro backend bookings nDays nRooms cap eps m0 e hb h
    simp [solve_two_tier_lco, hb, h]

/-- Witness for C3: the always-failing backend on the default mini table. -/
theorem C3_witness :
    failT1 (build_model miniBookings) = Except.error SolveStatus.infeasible ∧
    run_two_tier_demo failT1 miniBookings default_eps =
      (Except.error SolveStatus.infeasible, [build_model miniBookings]) :=
  ⟨rfl, C3_tier1_failure_aborts.1 failT1 miniBookings default_eps SolveStatus.infeasible rfl⟩

/-- Counterexample for C3 as stated: a Tier-1 infeasibility and a Tier-2
infeasibility surface to the caller as the very same value, so the surfaced
condition does not identify which tier failed. -/
theorem C3_counterexample_tier_not_identified :
    (run_two_tier_demo failT1 miniBookings default_eps).1 =
      Except.error SolveStatus.infeasible ∧
    (run_two_tier_demo failT2 miniBookings default_eps).1 =
      Except.error SolveStatus.infeasible ∧
    (run_two_tier_demo failT1 miniBookings default_eps).1 =
      (run_two_tier_demo failT2 miniBookings default_eps).1 :=
  ⟨rfl, rfl, rfl⟩

/-! ### Fixtures for the build-time validation claims -/

/-- A capacity dictionary keyed exactly by the 5-day horizon, negative on
every day. -/
def negCap : List (Nat × ℤ) := [(1, -1), (2, -1), (3, -1), (4, -1), (5, -1)]

/-- The default table extended with a zero-length (empty-stay) booking whose
start day is inside the horizon; the 12 default bookings cover every day, so
room-exclusivity construction succeeds on this table. -/
def mixedZeroTable : List (Nat × Booking) := miniBookings ++ [(13, ⟨1, 0, 50, 1/2⟩)]

/-- The default table extended with a booking starting past the 5-day horizon
(day 9); again every horizon day is covered by the default bookings. -/
def coveredOutTable : List (Nat × Booking) := miniBookings ++ [(13, ⟨9, 2, 100, 1/2⟩)]

/-- A table whose only booking starts on day 6 of a 5-day horizon. -/
def badTable : List (Nat × Booking) := [(1, ⟨6, 1, 50, 1/2⟩)]

/-- Counterexample for C8 as stated: on the default 12-booking table (every
horizon day covered, capacity dict keyed exactly by `m.D`) with a capacity of
−1 on every day, `build_static_lco_model` succeeds and silently returns a
model instead of failing with an `InvalidInstance` error. -/
theorem C8_counterexample_negative_capacity_builds :
    (build_static_lco_model none 5 10 (some negCap)).isOk = true := by
  decide

/-- C8 (amended): no `InvalidInstance` error exists and capacity values are
never validated.  The build succeeds exactly when every start day lies in
`m.D`, the capacity dict is keyed within `m.D`, no horizon day is left
uncovered while room/day constraint instances exist, and the capacity dict
covers every horizon day — a characterization that nowhere inspects capacity
values, so a model with negative capacities is produced silently.  On its
actual fixed table the mini builder covers every day and cannot fail. -/
theorem C8_no_capacity_validation :
    (∀ bookings nDays nRooms cap,
      (build_static_lco_model bookings nDays nRooms cap).isOk = true ↔
        ((∀ p ∈ (bookings.getD build_default_bookings : List (Nat × Booking)),
            p.2.start_day ∈ mD nDays) ∧
         (∀ q ∈ (cap.getD (capDefault nDays nRooms) : List (Nat × ℤ)),
            q.1 ∈ mD nDays) ∧
         ¬ (mR nRooms ≠ [] ∧ ∃ d ∈ mD nDays,
            ¬ dayCovered (bookings.getD build_default_bookings) nDays d) ∧
         (∀ d ∈ mD nDays, d ∈ (cap.getD (capDefault nDays nRooms)).map Prod.fst))) ∧
    (build_static_lco_model none 5 10 (some negCap)).isOk = true ∧
    (∀ d ∈ days, ∃ b ∈ mB miniBookings, (b, d) ∈ in_stayM miniBookings) := by
  refine ⟨?_, by decide, by decide⟩
  intro bookings nDays nRooms cap
  simp only [build_static_lco_model]
  split_ifs with h1 h2 h3 h4 <;>
    simp only [Except.isOk, Except.toBool, Bool.false_eq_true, false_iff,
      eq_self_iff_true, true_iff] <;>
    aesop

/-- Witness for C8: the success characterization applied at the
negative-capacity input. -/
theorem C8_witness :
    (build_static_lco_model none 5 10 (some negCap)).isOk = true ↔
      ((∀ p ∈ ((none : Option (List (Nat × Booking))).getD build_default_bookings),
          p.2.start_day ∈ mD 5) ∧
       (∀ q ∈ ((some negCap).getD (capDefault 5 10) : List (Nat × ℤ)), q.1 ∈ mD 5) ∧
       ¬ (mR 10 ≠ [] ∧ ∃ d ∈ mD 5,
          ¬ dayCovered ((none : Option (List (Nat × Booking))).getD build_default_bookings) 5 d) ∧
       (∀ d ∈ mD 5, d ∈ ((some negCap).getD (capDefault 5 10)).map Prod.fst)) :=
  C8_no_capacity_validation.1 none 5 10 (some negCap)

/-- Counterexample for C10 as stated: a zero-length booking with an
in-horizon start day, added to the default table (which covers every horizon
day, so room-exclusivity construction succeeds), passes the start-day domain
check and the static builder does produce a model containing a booking with
an empty stay. -/
theorem C10_counterexample_zero_length_stay_builds :
    (build_static_lco_model (some mixedZeroTable) 5 10 none).isOk = true ∧
    13 ∈ mB mixedZeroTable ∧ stayOf mixedZeroTable 5 13 = [] := by
  decide

/-- C10 (amended): `build_static_lco_model` raises at parameter construction
whenever some booking's start day is outside `{1, ..., days}` (the
`within=m.D` domain of the `start` parameter), so a successfully built static
model contains only bookings whose start day lies in the horizon; the mini
builder performs no such check and accepts any start day (on a table whose
days are all covered, as required by room-exclusivity construction in both
builders).  However the static entry point can still build a model containing
a booking with an EMPTY stay: a zero-length booking with an in-horizon start
day builds alongside bookings covering every day. -/
theorem C10_static_start_domain_check :
    (∀ bookings nDays nRooms cap,
      (∃ p ∈ (bookings.getD build_default_bookings : List (Nat × Booking)),
        p.2.start_day ∉ mD nDays) →
      ∃ msg, build_static_lco_model bookings nDays nRooms cap = Except.error msg) ∧
    (∀ bookings nDays nRooms cap m0,
      build_static_lco_model bookings nDays nRooms cap = Except.ok m0 →
      (m0.core.bookings = bookings.getD build_default_bookings ∧
       ∀ p ∈ m0.core.bookings, p.2.start_day ∈ mD nDays)) ∧
    ((build_static_lco_model (some mixedZeroTable) 5 10 none).isOk = true ∧
     stayOf mixedZeroTable 5 13 = []) ∧
    (build_model coveredOutTable = ⟨coveredOutTable, Objective.revenueMax, none⟩ ∧
     13 ∈ mB coveredOutTable ∧ stay_days coveredOutTable 13 = [] ∧
     ∀ d ∈ days, ∃ b ∈ mB coveredOutTable, (b, d) ∈ in_stayM coveredOutTable) := by
  refine ⟨?_, ?_, ⟨by decide, by decide⟩, rfl, by decide, by decide, by decide⟩
  · intro bookings nDays nRooms cap hbad
    obtain ⟨p, hp, hnp⟩ := hbad
    have hc : ¬ ∀ p2 ∈ (bookings.getD build_default_bookings : List (Nat × Booking)),
        p2.2.start_day ∈ mD nDays :=
      fun hall => hnp (hall p hp)
    refine ⟨"Param m.start: value not in domain m.D", ?_⟩
    simp only [build_static_lco_model]
    rw [if_pos hc]
  · intro bookings nDays nRooms cap m0 h
    by_cases h1 : ∀ p ∈ (bookings.getD build_default_bookings : List (Nat × Booking)),
        p.2.start_day ∈ mD nDays
    · simp only [build_static_lco_model] at h
      rw [if_neg (not_not_intro h1)] at h
      split at h
      · cases h
      · split at h
        · cases h
        · split at h
          · cases h
          · cases h
            exact ⟨rfl, h1⟩
    · simp only [build_static_lco_model] at h
      rw [if_pos h1] at h
      cases h

/-- Witness for C10: a table with start day 6 on a 5-day horizon is rejected
at parameter construction. -/
theorem C10_witness :
    (∃ p ∈ ((some badTable).getD build_default_bookings : List (Nat × Booking)),
      p.2.start_day ∉ mD 5) ∧
    ∃ msg, build_static_lco_model (some badTable) 5 10 none = Except.error msg :=
  ⟨by decide, C10_static_start_domain_check.1 (some badTable) 5 10 none (by decide)⟩

/-- C9: extraction marks a booking accepted iff its acceptance value exceeds
0.5 strictly; a reported room passes the strict 0.5 test and the sparse-index
membership test on every stay day simultaneously; when no room passes, the
room is reported as `none` (the extraction functions are total, pure
functions of the loaded values: they call no solver and mutate nothing). -/
theorem C9_extraction_semantics :
    half = 1 / 2 ∧
    (∀ bks v b, b ∈ acceptedM bks v ↔ b ∈ mB bks ∧ half < v.aV b) ∧
    (∀ bks v b r, extractRoomM bks v b = some r →
      r ∈ rooms ∧ ∀ d ∈ stay_days bks b, (b, r, d) ∈ YIDXM bks ∧ half < v.yV b r d) ∧
    (∀ bks v b, extractRoomM bks v b = none ↔
      ∀ r ∈ rooms, ¬ ∀ d ∈ stay_days bks b,
        ((b, r, d) ∈ YIDXM bks ∧ half < v.yV b r d)) ∧
    (∀ bks v, assignmentsM bks v =
      (acceptedM bks v).map fun b => (b, stay_days bks b, extractRoomM bks v b)) ∧
    (∀ c v b, b ∈ acceptedS c v ↔ b ∈ mB c.bookings ∧ half < v.aV b) ∧
    (∀ c v b r, extractRoomS c v b = some r →
      r ∈ mR c.nRooms ∧ ∀ d ∈ stayOf c.bookings c.nDays b,
        (b, r, d) ∈ YIDXS c.bookings c.nDays c.nRooms ∧ half < v.yV b r d) ∧
    (∀ c v b, extractRoomS c v b = none ↔
      ∀ r ∈ mR c.nRooms, ¬ ∀ d ∈ stayOf c.bookings c.nDays b,
        ((b, r, d) ∈ YIDXS c.bookings c.nDays c.nRooms ∧ half < v.yV b r d)) ∧
    (∀ c v, room_assignmentsS c v =
      (acceptedS c v).map fun b => (b, (extractRoomS c v b, stayOf c.bookings c.nDays b))) := by
  refine ⟨?_, ?_, ?_, ?_, fun bks v => rfl, ?_, ?_, ?_, fun c v => rfl⟩
  · rw [half, Rat.mk'_eq_divInt, Rat.divInt_eq_div]
    norm_num
  · intro bks v b
    simp [acceptedM, List.mem_filter]
  · intro bks v b r h
    refine ⟨List.mem_of_find?_eq_some h, ?_⟩
    have hp := List.find?_some h
    rw [List.all_eq_true] at hp
    intro d hd
    have := hp d hd
    rw [Bool.and_eq_true, decide_eq_true_eq, decide_eq_true_eq] at this
    exact this
  · intro bks v b
    rw [extractRoomM, List.find?_eq_none]
    constructor
    · intro h r hr hall
      apply h r hr
      rw [List.all_eq_true]
      intro d hd
      rw [Bool.and_eq_true, decide_eq_true_eq, decide_eq_true_eq]
      exact hall d hd
    · intro h r hr hpred
      apply h r hr
      rw [List.all_eq_true] at hpred
      intro d hd
      have := hpred d hd
      rw [Bool.and_eq_true, decide_eq_true_eq, decide_eq_true_eq] at this
      exact this
  · intro c v b
    simp [acceptedS, List.mem_filter]
  · intro c v b r h
    refine ⟨List.mem_of_find?_eq_some h, ?_⟩
    have hp := List.find?_some h
    rw [List.all_eq_true] at hp
    intro d hd
    have := hp d hd
    rw [Bool.and_eq_true, decide_eq_true_eq, decide_eq_true_eq] at this
    exact this
  · intro c v b
    rw [extractRoomS, List.find?_eq_none]
    constructor
    · intro h r hr hall
      apply h r hr
      rw [List.all_eq_true]
      intro d hd
      rw [Bool.and_eq_true, decide_eq_true_eq, decide_eq_true_eq]
      exact hall d hd
    · intro h r hr hpred
      apply h r hr
      rw [List.all_eq_true] at hpred
      intro d hd
      have := hpred d hd
      rw [Bool.and_eq_true, decide_eq_true_eq, decide_eq_true_eq] at this
      exact this

/-- Witness for C9: on the tiny table with all-ones loaded values, room 1 is
extracted for booking 1 and indeed passes the strict threshold and index
tests on every stay day. -/
theorem C9_witness :
    extractRoomM tbl1 valsOne 1 = some 1 ∧
    (1 ∈ rooms ∧ ∀ d ∈ stay_days tbl1 1, (1, 1, d) ∈ YIDXM tbl1 ∧ half < valsOne.yV 1 1 d) :=
  ⟨by decide, C9_extraction_semantics.2.2.1 tbl1 valsOne 1 1 (by decide)⟩

end LCO


